import Mathlib

/-!
Verification development for the Adhikar document-QA application
(`archive_new/app.py`).  The Python source is shallowly embedded:

* Python `str` values are modelled as `List Char` (`Str`), so slicing and
  indexing are by code point, as in Python.
* External collaborators (MongoDB, the Gemini embedding/generation
  services, bcrypt, PyMuPDF, pytesseract, the JSON decoder) are modelled
  as explicit oracle parameters: a call that can raise is an
  `Except Str _` value supplied by the environment.
* Collections are in-memory lists of documents in natural (insertion)
  order, which is how the application reads them back.
-/

namespace Adhikar

/-- Python strings, modelled as lists of characters. -/
abbrev Str := List Char

/-- Coerce a Lean string literal to the `Str` model. -/
def str (s : String) : Str := s.toList

/-- Python slice `l[a:b]` for `a ≤ b` (character offsets). -/
def pySlice (l : Str) (a b : Nat) : Str := (l.drop a).take (b - a)

/-- The regex class `\w` of `re` (ASCII fragment: letters, digits, underscore). -/
def isWordChar (c : Char) : Bool := c.isAlphanum || c = '_'

/-- Body of `re.sub` for the pattern joining hyphenated line breaks, with
fuel for structural recursion: each step consumes at least one character,
so `fuel = l.length + 1` makes the model exact (see `deHyph`).  Matches
are found left to right; after a replacement, scanning resumes after the
second word group, exactly as `re.sub` does (a group-2 run is not
reconsidered as the group 1 of a later match). -/
def deHyphAux : Nat → Str → Str
  | 0, l => l
  | _ + 1, [] => []
  | fuel + 1, c :: rest =>
    if isWordChar c then
      match List.dropWhile isWordChar (c :: rest) with
      | '-' :: '\n' :: d :: rest3 =>
        if isWordChar d then
          List.takeWhile isWordChar (c :: rest) ++ List.takeWhile isWordChar (d :: rest3) ++
            deHyphAux fuel (List.dropWhile isWordChar (d :: rest3))
        else List.takeWhile isWordChar (c :: rest) ++ deHyphAux fuel ('-' :: '\n' :: d :: rest3)
      | tail => List.takeWhile isWordChar (c :: rest) ++ deHyphAux fuel tail
    else c :: deHyphAux fuel rest

/-- The first substitution of `_clean_text`: join a word broken across a
line wrap by dropping the hyphen-newline between the two word groups. -/
def deHyph (l : Str) : Str := deHyphAux (l.length + 1) l

/-- The second step of `_clean_text`: replace every CR with LF. -/
def mapCR (l : Str) : Str := l.map (fun c => if c = '\r' then '\n' else c)

/-- Body of the third substitution of `_clean_text`: collapse runs of two
or more newlines to exactly two.  The counter is how many newlines of the
current run have been emitted (capped at 2). -/
def collapseNLAux : Nat → Str → Str
  | _, [] => []
  | n, c :: rest =>
    if c = '\n' then
      if n < 2 then '\n' :: collapseNLAux (n + 1) rest else collapseNLAux n rest
    else c :: collapseNLAux 0 rest

/-- Third step of `_clean_text`: collapse blank-line runs. -/
def collapseNL (l : Str) : Str := collapseNLAux 0 l

/-- Fourth step of `_clean_text`: replace tab and NBSP (U+00A0) with a space. -/
def mapTabNbsp (l : Str) : Str :=
  l.map (fun c => if c = '\t' || c = Char.ofNat 0xA0 then ' ' else c)

/-- Body of the fifth substitution of `_clean_text`: collapse runs of
spaces to a single space.  The flag records whether the previous
character was a space. -/
def collapseSPAux : Bool → Str → Str
  | _, [] => []
  | prevSp, c :: rest =>
    if c = ' ' then
      if prevSp then collapseSPAux true rest else ' ' :: collapseSPAux true rest
    else c :: collapseSPAux false rest

/-- Fifth step of `_clean_text`: collapse space runs. -/
def collapseSP (l : Str) : Str := collapseSPAux false l

/-- The whitespace class removed by Python `str.strip()` (ASCII fragment). -/
def isPySpace (c : Char) : Bool :=
  c = ' ' || c = '\t' || c = '\n' || c = '\r' ||
    c = Char.ofNat 0x0B || c = Char.ofNat 0x0C

/-- Python `txt.strip()`. -/
def pyStrip (l : Str) : Str :=
  ((l.dropWhile isPySpace).reverse.dropWhile isPySpace).reverse

/-- Model of `_clean_text` of `archive_new/app.py`: de-hyphenate across line wraps,
normalize CR, collapse blank-line runs, turn tabs and NBSP into spaces,
collapse space runs, strip. -/
def clean_text (txt : Str) : Str :=
  if txt = [] then []
  else pyStrip (collapseSP (mapTabNbsp (collapseNL (mapCR (deHyph txt)))))

/-- The `while start < len(text)` loop of `chunk_text`, with explicit fuel.
The Python loop diverges when `overlap ≥ chunk_size` (the window never
advances); with `fuel = text.length + 1` the model is exact whenever
`overlap < chunk_size`.  `end - overlap` in `Nat` equals Python
`max(0, end - overlap)`. -/
def chunkLoop (text : Str) (csize overlap : Nat) : Nat → Nat → List Str
  | _, 0 => []
  | start, fuel + 1 =>
    if start < text.length then
      let e := min text.length (start + csize)
      if e = text.length then [pySlice text start e]
      else pySlice text start e :: chunkLoop text csize overlap (e - overlap) fuel
    else []

/-- Model of `chunk_text` of `archive_new/app.py` (defaults `chunk_size = 1200`,
`overlap = 200`): clean the text, return it whole if it fits in one chunk,
otherwise slide the window. -/
def chunk_text (text : Str) (csize overlap : Nat) : List Str :=
  let t := clean_text text
  if t.length ≤ csize then (if t = [] then [] else [t])
  else chunkLoop t csize overlap 0 (t.length + 1)

/-- Concatenation with the overlap removed: the first segment whole, every
later segment with its first `ov` characters dropped. -/
def joinOverlap (ov : Nat) : List Str → Str
  | [] => []
  | s :: rest => s ++ (rest.map (fun t => t.drop ov)).flatten

/-! ### Data model: documents, chunks, users, sessions -/

/-- A document of the `doc_chunks` collection (one retrievable chunk). -/
structure ChunkDoc where
  doc_id : String
  user_id : String
  page : Nat
  chunk_index : Nat
  content : Str
  embedding : List Int
  created_at : Nat
deriving DecidableEq

/-- One row of the `$project` stage of `vector_search_chunks`. -/
structure SearchHit where
  content : Str
  doc_id : String
  page : Nat
  score : Int
deriving DecidableEq

/-- A document of the `documents` collection. -/
structure DocMeta where
  doc_id : String
  user_id : String
  filename : String
  page_count : Nat
  created_at : Nat
deriving DecidableEq

/-- The two shapes of dict returned by `ingest_document_to_mongo`:
`{"ok": False, "error": msg}` or `{"ok": True, "doc_id": ..., "pages": ...,
"chunks": ...}`. -/
inductive IngestResult where
  | err (msg : Str)
  | ok (doc_id : String) (pages chunks : Nat)
deriving DecidableEq

/-- What the PDF library and the OCR engine yield for one PDF page: the
native text layer (`page.get_text("text") or ""`) and the outcome of the
rasterize-and-OCR attempt (both `pytesseract` calls and `_page_to_image`
folded into one fallible result; the multilingual-to-default language
fallback is internal to it). -/
structure PdfPage where
  native : Str
  ocr : Except Str Str

/-- One entry of the list returned by `extract_pdf_pages_text_or_ocr`. -/
structure Page where
  page : Nat
  text : Str
deriving DecidableEq

/-- The fields `answer_with_rag` reads off a successfully decoded JSON
payload: `payload.get("answer", "")` and, per source,
`(doc_id, page, score)` with the `.get` defaults already applied.
Python floats are abstracted as integers (scores are only carried and
printed, never computed with). -/
structure RagPayload where
  answer : Str
  sources : List (String × Nat × Int)
deriving DecidableEq

/-- The external collaborators of the ingestion/retrieval/synthesis
pipeline: Gemini embedding and generation, the Atlas vector index, the
OCR stack, MongoDB inserts, `json.loads`, `uuid`, and the clock.  A
fallible remote call is an `Except Str _` value. -/
structure RagEnv where
  embedDoc : Str → Except Str (List Int)
  embedQuery : Str → Except Str (List Int)
  scoreFn : List Int → List Int → Int
  indexOk : Bool
  generate : Str → Except Str Str
  parseJson : Str → Except Str RagPayload
  newDocId : String
  now : Nat
  imageOcr : List Nat → Except Str Str
  pdfPages : List Nat → List PdfPage
  insertDoc : DocMeta → Except Str Unit
  insertChunk : ChunkDoc → Except Str Unit
  lang : String

/-! ### Document extraction (`extract_image_text`,
`extract_pdf_pages_text_or_ocr`) -/

/-- Model of `extract_image_text`: OCR the image and clean the result; any raised
error is caught and rendered as an `"Error processing image: ..."`
string. -/
def extract_image_text (imgOcr : Except Str Str) : Str :=
  match imgOcr with
  | .ok t => clean_text t
  | .error e => str "Error processing image: " ++ e

/-- Model of `extract_pdf_pages_text_or_ocr`: per page, clean the native text
layer; when it is shorter than 50 characters (likely a scanned page), try
OCR instead, keeping the native text when the OCR attempt raises
(`except Exception: pass`).  Pages are numbered from 1. -/
def extract_pdf_pages_text_or_ocr (pdoc : List PdfPage) : List Page :=
  pdoc.enum.map (fun pr =>
    let txtClean := clean_text pr.2.native
    { page := pr.1 + 1,
      text :=
        if txtClean.length < 50 then
          match pr.2.ocr with
          | .ok t2 => clean_text t2
          | .error _ => txtClean
        else txtClean })

/-! ### Embedding and ingestion (`embed_texts_gemini`,
`ingest_document_to_mongo`) -/

/-- Model of `embed_texts_gemini`: embed each text; a failed call is warned about
and contributes an empty embedding (`embeddings.append([])` is reached
only on the `except` path because a successful call appends its
vector). -/
def embed_texts_gemini (embedDoc : Str → Except Str (List Int)) (texts : List Str) :
    List (List Int) :=
  if texts = [] then []
  else
    texts.foldl (fun acc t =>
      acc ++ [match embedDoc t with
              | .ok emb => emb
              | .error _ => []]) []

/-- The inner `for i, (chunk, emb) in enumerate(zip(chunks, embs))` loop
of `ingest_document_to_mongo`: build each chunk document and insert it,
counting only successful inserts (a failed insert is warned about and
skipped). -/
def insertChunks (env : RagEnv) (doc_id user_id : String) (page : Nat) :
    List (Nat × (Str × List Int)) → Nat × List ChunkDoc → Nat × List ChunkDoc
  | [], acc => acc
  | p :: rest, acc =>
    let cd : ChunkDoc :=
      { doc_id := doc_id, user_id := user_id, page := page, chunk_index := p.1,
        content := p.2.1, embedding := p.2.2, created_at := env.now }
    match env.insertChunk cd with
    | .ok _ => insertChunks env doc_id user_id page rest (acc.1 + 1, acc.2 ++ [cd])
    | .error _ => insertChunks env doc_id user_id page rest acc

/-- The outer `for p in pages` loop of `ingest_document_to_mongo`: chunk
each page (empty pages contribute nothing), embed the chunks, insert
them. -/
def ingestPagesLoop (env : RagEnv) (doc_id user_id : String) :
    List Page → Nat × List ChunkDoc → Nat × List ChunkDoc
  | [], acc => acc
  | p :: rest, acc =>
    let chs := if p.text = [] then [] else chunk_text p.text 1200 200
    let embs := embed_texts_gemini env.embedDoc chs
    ingestPagesLoop env doc_id user_id rest
      (insertChunks env doc_id user_id p.page ((chs.zip embs).enum) acc)

/-- Python `str.lower()`, modelled over the character list ( `String.map`
does not reduce in the kernel). -/
def pyLower (s : String) : String := String.mk (s.data.map Char.toLower)

/-- The page-extraction prologue of `ingest_document_to_mongo`: image
OCR for png/jpg/jpeg (failing on empty or `"Error..."` text), per-page
PDF extraction otherwise (failing on an empty page list). -/
def ingest_extract_pages (env : RagEnv) (file_bytes : List Nat) (file_type : String) :
    Except Str (List Page) :=
  if pyLower file_type == "png" || pyLower file_type == "jpg"
      || pyLower file_type == "jpeg" then
    let text := extract_image_text (env.imageOcr file_bytes)
    if text = [] then Except.error (str "No text extracted from image")
    else if (str "Error").isPrefixOf text then Except.error text
    else Except.ok [{ page := 1, text := text }]
  else
    let pages := extract_pdf_pages_text_or_ocr (env.pdfPages file_bytes)
    if pages = [] then Except.error (str "No pages extracted")
    else Except.ok pages

/-- Model of `ingest_document_to_mongo`: extract pages, persist the document
metadata, then chunk, embed and persist each page.  Returns the result
dict together with the updated `documents` and `doc_chunks`
collections. -/
def ingest_document_to_mongo (env : RagEnv) (collection_docs : List DocMeta)
    (collection_chunks : List ChunkDoc) (file_bytes : List Nat) (filename : String)
    (user_id : String) (file_type : String) :
    IngestResult × List DocMeta × List ChunkDoc :=
  match ingest_extract_pages env file_bytes file_type with
  | .error e => (.err e, collection_docs, collection_chunks)
  | .ok pages =>
    let doc_id := env.newDocId
    let doc_meta : DocMeta :=
      { doc_id := doc_id, user_id := user_id, filename := filename,
        page_count := pages.length, created_at := env.now }
    match env.insertDoc doc_meta with
    | .error e =>
      (.err (str "Failed to save document meta: " ++ e), collection_docs, collection_chunks)
    | .ok _ =>
      let res := ingestPagesLoop env doc_id user_id pages (0, [])
      (.ok doc_id pages.length res.1, collection_docs ++ [doc_meta],
        collection_chunks ++ res.2)

/-- Specification of what `ingest_document_to_mongo` does once page
extraction has produced `pages`: a failing metadata insert yields the
`"Failed to save document meta"` error with both collections unchanged;
a successful one persists the Document record and returns ok with
`doc_id`, the page count and the persisted chunk count. -/
def ingestAfterPages (env : RagEnv) (docs : List DocMeta) (chs : List ChunkDoc)
    (bytes : List Nat) (fn uid ft : String) (pages : List Page) : Prop :=
  ∀ meta : DocMeta,
    meta = { doc_id := env.newDocId, user_id := uid, filename := fn,
             page_count := pages.length, created_at := env.now } →
    (∀ e, env.insertDoc meta = Except.error e →
      ingest_document_to_mongo env docs chs bytes fn uid ft =
        (IngestResult.err (str "Failed to save document meta: " ++ e), docs, chs)) ∧
    (env.insertDoc meta = Except.ok () →
      ingest_document_to_mongo env docs chs bytes fn uid ft =
        (IngestResult.ok env.newDocId pages.length
           (ingestPagesLoop env env.newDocId uid pages (0, [])).1,
         docs ++ [meta],
         chs ++ (ingestPagesLoop env env.newDocId uid pages (0, [])).2))

/-! ### Retrieval (`vector_search_chunks`) -/

/-- Insert into a list kept in descending `key` order (used to model the
score ordering of `$vectorSearch` results). -/
def insertDesc {α : Type} (key : α → Int) (x : α) : List α → List α
  | [] => [x]
  | y :: ys => if key y ≤ key x then x :: y :: ys else y :: insertDesc key x ys

/-- Sort descending by `key` (insertion sort). -/
def sortDesc {α : Type} (key : α → Int) (l : List α) : List α :=
  l.foldr (insertDesc key) []

/-- Model of `vector_search_chunks`: embed the query (returning `[]` if that
raises), then run the `$vectorSearch` stage — candidates restricted by
the `filter: {"user_id": user_id}` predicate inside the stage itself,
ranked by score, truncated to `limit: k` — and `$project` each hit.
Approximation of the model: Atlas ANN search with `numCandidates: 200`
is modelled as exact nearest-neighbour search over the filtered
collection, with the opaque similarity `scoreFn`; an unavailable or
misconfigured index (`aggregate` raising) is the `indexOk = false` path,
which returns `[]`. -/
def vector_search_chunks (env : RagEnv) (collection_chunks : List ChunkDoc)
    (query : Str) (user_id : String) (k : Nat) : List SearchHit :=
  match env.embedQuery query with
  | .error _ => []
  | .ok qv =>
    if env.indexOk then
      let filtered := collection_chunks.filter (fun c => c.user_id == user_id)
      let sorted := sortDesc (fun c => env.scoreFn qv c.embedding) filtered
      (sorted.take k).map (fun c =>
        { content := c.content, doc_id := c.doc_id, page := c.page,
          score := env.scoreFn qv c.embedding })
    else []

/-! ### Answer synthesis (`answer_with_rag`) -/

/-- Python `sep.join(parts)`. -/
def joinSep (sep : Str) : List Str → Str
  | [] => []
  | [x] => x
  | x :: xs => x ++ sep ++ joinSep sep xs

/-- Model of `get_text("top_sources", language)` of the translation table. -/
def get_text_top_sources (language : String) : String :=
  if language = "Hindi" then "मुख्य स्रोत"
  else if language = "Gujarati" then "મુખ્ય સ્ત્રોત"
  else "Top Sources"

/-- The `lang_note` dictionary lookup of `answer_with_rag` (with its
`.get(language, "Respond in English.")` default). -/
def lang_note (language : String) : String :=
  if language = "English" then "Respond in English."
  else if language = "Hindi" then "पूरी प्रतिक्रिया हिंदी में दें। JSON की कुंजियाँ अंग्रेज़ी में रखें।"
  else if language = "Gujarati" then "સમ્પૂર્ણ પ્રતિભાવ ગુજરાતી માં આપો. JSON કીઓ અંગ્રેજીમાં જ રાખો."
  else "Respond in English."

/-- The `sources_block` of the prompt: each retrieved hit rendered with
its document id, page, score and the first 300 characters of its
content.  (Float score formatting `:.4f` is abstracted to `toString` of
the integer score model.) -/
def sources_block (top_chunks : List SearchHit) : Str :=
  joinSep (str "\n\n") (top_chunks.map (fun r =>
    str "[doc:" ++ str r.doc_id ++ str " p." ++ str (toString r.page) ++
      str "] score=" ++ str (toString r.score) ++ str " :: " ++ r.content.take 300))

/-- The prompt template of `answer_with_rag` (braces of the JSON schema
written via escapes). -/
def rag_prompt (question : Str) (top_chunks : List SearchHit) (language : String) : Str :=
  str "\nYou are a legal assistant for India. Use ONLY the following retrieved snippets to answer the user question. If insufficient, say so.\n\nQuestion: " ++
    question ++
    str "\n\nRetrieved Snippets:\n" ++
    sources_block top_chunks ++
    str "\n\n" ++ str (lang_note language) ++
    str "\n\nReturn a compact JSON with these keys:\n\x7b\n  \"answer\": string,  \n  \"sources\": [\n    \x7b\"doc_id\": string, \"page\": number, \"score\": number\x7d\n  ]\n\x7d\nDo not include extra keys.\n"

/-- Python `text.find(ch)`, with `None` for `-1`. -/
def pyFindChar (l : Str) (ch : Char) : Option Nat := l.findIdx? (fun c => c = ch)

/-- Python `text.rfind(ch)`, with `None` for `-1`. -/
def pyRFindChar (l : Str) (ch : Char) : Option Nat :=
  match l.reverse.findIdx? (fun c => c = ch) with
  | some i => some (l.length - 1 - i)
  | none => none

/-- The `sources_md` bullet list of `answer_with_rag` (score float
formatting `:.3f` abstracted to `toString`). -/
def sources_md (srcs : List (String × Nat × Int)) : Str :=
  joinSep (str "\n") (srcs.map (fun s =>
    str "- " ++ str s.1 ++ str " p." ++ str (toString s.2.1) ++
      str " (score " ++ str (toString s.2.2) ++ str ")"))

/-- Model of `answer_with_rag`: build the prompt, call the generation service,
take the span between the first opening and the last closing brace and
JSON-decode it.  The whole body sits in one `try`, so a raised
`JSONDecodeError` reaches the outer `except` and is rendered as an
`"Error synthesizing answer: ..."` string; the bare `return text`
fallback is reached only when no brace span exists. -/
def answer_with_rag (env : RagEnv) (question : Str) (top_chunks : List SearchHit)
    (language : String) : Str :=
  match env.generate (rag_prompt question top_chunks language) with
  | .error e => str "Error synthesizing answer: " ++ e
  | .ok text =>
    match pyFindChar text '\x7b', pyRFindChar text '\x7d' with
    | some s, some e =>
      if s < e then
        match env.parseJson (pySlice text s (e + 1)) with
        | .error err => str "Error synthesizing answer: " ++ err
        | .ok payload =>
          payload.answer ++ str "\n\n**" ++ str (get_text_top_sources env.lang) ++
            str ":**\n" ++ sources_md payload.sources
      else text
    | some _, none => text
    | none, some _ => text
    | none, none => text

/-! ### Identity store (`create_user`, `authenticate_user`) -/

/-- A document of the users collection. -/
structure UserDoc where
  user_id : String
  username : String
  email : String
  password_hash : String
  created_at : Nat
  last_login : Option Nat
  is_active : Bool
deriving DecidableEq

/-- The dict returned by a successful `authenticate_user`. -/
structure UserInfo where
  user_id : String
  username : String
  email : String
deriving DecidableEq

/-- The bcrypt collaborator: `hash_password` (salt generation folded
into the oracle) and the verifier `bcrypt.checkpw`. -/
structure Bcrypt where
  hashpw : String → String
  checkpw : String → String → Bool

/-- Model of `create_user`: refuse when a user with the same username or email
exists (`find_one` on the `$or` filter), otherwise insert a new active
user with the hashed password.  The in-memory store makes inserts
infallible, so the `except` path returning `False` is dead here. -/
def create_user (bc : Bcrypt) (collection : List UserDoc)
    (username email password : String) (newId : String) (now : Nat) :
    Bool × List UserDoc :=
  if collection.any (fun u => u.username == username || u.email == email) then
    (false, collection)
  else
    let doc : UserDoc :=
      { user_id := newId, username := username, email := email,
        password_hash := bc.hashpw password, created_at := now, last_login := none,
        is_active := true }
    (true, collection ++ [doc])

/-- Model of `update_one({"user_id": uid}, {"$set": {"last_login": now}})`:
update the first matching document. -/
def updateLastLoginFirst (now : Nat) (uid : String) : List UserDoc → List UserDoc
  | [] => []
  | u :: rest =>
    if u.user_id == uid then { u with last_login := some now } :: rest
    else u :: updateLastLoginFirst now uid rest

/-- Model of `authenticate_user`: `find_one({"username": ..., "is_active": True})`
(first match in natural order), verify the password, record the login
time on success; `None` on a missing active user or a failed check. -/
def authenticate_user (bc : Bcrypt) (collection : List UserDoc)
    (username password : String) (now : Nat) : Option UserInfo × List UserDoc :=
  match collection.find? (fun u => u.username == username && u.is_active) with
  | none => (none, collection)
  | some user =>
    if bc.checkpw password user.password_hash then
      (some { user_id := user.user_id, username := user.username, email := user.email },
        updateLastLoginFirst now user.user_id collection)
    else (none, collection)

/-! ### Session store and message log (`get_user_sessions`,
`get_session_messages`, `delete_session`) -/

/-- A document of the `chat_messages` collection.  Session rows are the
documents with `role = "session_start"`; `save_message_to_db` omits
`user_id`/`session_id` when absent, hence the `Option` fields. -/
structure MsgDoc where
  session_id : Option String
  user_id : Option String
  role : String
  content : String
  content_hash : String
  prediction : Option String
  timestamp : Nat
deriving DecidableEq

/-- Insert into a list kept in ascending timestamp order (models the
Mongo `sort=[("timestamp", 1)]`). -/
def insertByTimeAsc (x : MsgDoc) : List MsgDoc → List MsgDoc
  | [] => [x]
  | y :: ys => if x.timestamp ≤ y.timestamp then x :: y :: ys else y :: insertByTimeAsc x ys

/-- Sort chronologically (insertion sort on `timestamp`). -/
def sortByTimeAsc (l : List MsgDoc) : List MsgDoc := l.foldr insertByTimeAsc []

/-- Sort newest first (`sort=[("timestamp", -1)]`). -/
def sortByTimeDesc (l : List MsgDoc) : List MsgDoc := (sortByTimeAsc l).reverse

/-- Model of `get_user_sessions`: the `session_start` rows of the user, newest
first. -/
def get_user_sessions (collection : List MsgDoc) (user_id : String) : List MsgDoc :=
  sortByTimeDesc (collection.filter (fun d =>
    d.user_id == some user_id && d.role == "session_start"))

/-- Model of `get_session_messages`: every row of `(session_id, user_id)` in
chronological order. -/
def get_session_messages (collection : List MsgDoc) (session_id user_id : String) :
    List MsgDoc :=
  sortByTimeAsc (collection.filter (fun d =>
    d.session_id == some session_id && d.user_id == some user_id))

/-- Model of `delete_session`: `delete_many({"session_id": ..., "user_id": ...})`
removes the session row and all its messages in one filter; the return
value `deleted_count >= 0` is always `True` on the non-raising path. -/
def delete_session (collection : List MsgDoc) (session_id user_id : String) :
    Bool × List MsgDoc :=
  (true, collection.filter (fun d =>
    !(d.session_id == some session_id && d.user_id == some user_id)))

/-! ### Concrete fixtures used to instantiate the theorems -/

/-- A benign environment: embeddings succeed, the index is available,
inserts succeed, scoring reads the head of the stored vector. -/
def baseEnv : RagEnv where
  embedDoc := fun _ => Except.ok [1]
  embedQuery := fun _ => Except.ok [1]
  scoreFn := fun _ emb => emb.headD 0
  indexOk := true
  generate := fun _ => Except.ok []
  parseJson := fun _ => Except.error (str "Expecting value")
  newDocId := "d"
  now := 0
  imageOcr := fun _ => Except.error (str "no image")
  pdfPages := fun _ => []
  insertDoc := fun _ => Except.ok ()
  insertChunk := fun _ => Except.ok ()
  lang := "English"

/-- Environment whose embedding service always fails, over a one-page
document of sixty letters. -/
def embedFailEnv : RagEnv :=
  { baseEnv with
    embedDoc := fun _ => Except.error (str "boom"),
    pdfPages := fun _ => [{ native := List.replicate 60 'a', ocr := Except.ok [] }] }

/-- Environment whose single PDF page has no native text and whose OCR
fails, so every extracted page is empty. -/
def emptyPageEnv : RagEnv :=
  { baseEnv with
    pdfPages := fun _ => [{ native := [], ocr := Except.error (str "ocr fail") }] }

/-- Environment whose PDF yields no pages at all. -/
def noPagesEnv : RagEnv := baseEnv

/-- Environment whose generation service returns a brace-delimited span
that is not valid JSON. -/
def badJsonEnv : RagEnv :=
  { baseEnv with
    generate := fun _ => Except.ok (str "\x7bnot json\x7d"),
    parseJson := fun _ => Except.error (str "Expecting value: line 1 column 2 (char 1)") }

/-- A chunk owned by tenant `A` with a low-scoring vector. -/
def chunkA : ChunkDoc where
  doc_id := "dA"
  user_id := "A"
  page := 1
  chunk_index := 0
  content := str "alpha"
  embedding := [1]
  created_at := 0

/-- A chunk owned by tenant `B` whose vector scores strictly higher. -/
def chunkB : ChunkDoc where
  doc_id := "dB"
  user_id := "B"
  page := 1
  chunk_index := 0
  content := str "beta"
  embedding := [9]
  created_at := 0

/-- A bcrypt stand-in satisfying the two verifier laws (identity hash,
equality check); used only to instantiate theorems. -/
def idBcrypt : Bcrypt where
  hashpw := fun p => p
  checkpw := fun p h => p == h

/-- A deactivated account whose stored hash would verify under
`idBcrypt`. -/
def inactiveAlice : UserDoc where
  user_id := "u1"
  username := "alice"
  email := "a@x.com"
  password_hash := "pw123"
  created_at := 0
  last_login := none
  is_active := false

/-- A message collection holding one session row of session `S` of user
`owner`, three of its messages, and one row of another session. -/
def c9coll : List MsgDoc :=
  [{ session_id := some "S", user_id := some "owner", role := "session_start",
     content := "My session", content_hash := "h0", prediction := none, timestamp := 0 },
   { session_id := some "S", user_id := some "owner", role := "user",
     content := "hi", content_hash := "h1", prediction := none, timestamp := 1 },
   { session_id := some "S", user_id := some "owner", role := "assistant",
     content := "hello", content_hash := "h2", prediction := some "Appeal Allowed",
     timestamp := 2 },
   { session_id := some "S", user_id := some "owner", role := "user",
     content := "thanks", content_hash := "h3", prediction := none, timestamp := 3 },
   { session_id := some "T", user_id := some "owner", role := "session_start",
     content := "Other session", content_hash := "h4", prediction := none, timestamp := 4 }]

/-! ### Structural lemmas about the chunking loop -/

theorem chunkLoop_zero (t : Str) (c ov start : Nat) : chunkLoop t c ov start 0 = [] := rfl

theorem chunkLoop_succ (t : Str) (c ov start fuel : Nat) :
    chunkLoop t c ov start (fuel + 1) =
      if start < t.length then
        if min t.length (start + c) = t.length then [pySlice t start (min t.length (start + c))]
        else
          pySlice t start (min t.length (start + c)) ::
            chunkLoop t c ov (min t.length (start + c) - ov) fuel
      else [] := rfl

theorem pySlice_length (t : Str) (a b : Nat) :
    (pySlice t a b).length = min (b - a) (t.length - a) := by
  simp [pySlice]

theorem chunkLoop_len_le (t : Str) (c ov : Nat) :
    ∀ fuel start, ∀ s ∈ chunkLoop t c ov start fuel, s.length ≤ c := by
  intro fuel
  induction fuel with
  | zero => intro start s hs; simp [chunkLoop_zero] at hs
  | succ n ih =>
    intro start s hs
    rw [chunkLoop_succ] at hs
    by_cases h1 : start < t.length
    · rw [if_pos h1] at hs
      by_cases h2 : t.length ≤ start + c
      · rw [Nat.min_eq_left h2, if_pos rfl] at hs
        simp only [List.mem_singleton] at hs
        subst hs
        rw [pySlice_length]
        omega
      · have hlt : start + c < t.length := by omega
        rw [Nat.min_eq_right (Nat.le_of_lt hlt), if_neg (by omega)] at hs
        rcases List.mem_cons.mp hs with hseg | hrec
        · subst hseg
          rw [pySlice_length]
          omega
        · exact ih _ s hrec
    · rw [if_neg h1] at hs
      simp at hs

theorem chunkLoop_head (t : Str) (c ov : Nat) (fuel start : Nat)
    (h1 : start < t.length) (h2 : t.length - start ≤ fuel) :
    ∃ L, chunkLoop t c ov start fuel =
      pySlice t start (min t.length (start + c)) :: L := by
  cases fuel with
  | zero => omega
  | succ n =>
    rw [chunkLoop_succ, if_pos h1]
    by_cases h2' : min t.length (start + c) = t.length
    · rw [if_pos h2']
      exact ⟨[], rfl⟩
    · rw [if_neg h2']
      exact ⟨_, rfl⟩

theorem chunkLoop_chain (t : Str) (c ov : Nat) (hov : ov < c) :
    ∀ fuel start, start < t.length → t.length - start ≤ fuel →
      List.Chain' (fun s1 s2 => s1.drop (s1.length - ov) = s2.take ov)
        (chunkLoop t c ov start fuel) := by
  intro fuel
  induction fuel with
  | zero => intro start h1 h2; omega
  | succ n ih =>
    intro start h1 h2
    rw [chunkLoop_succ, if_pos h1]
    by_cases h3 : t.length ≤ start + c
    · rw [Nat.min_eq_left h3, if_pos rfl]
      exact List.chain'_singleton _
    · have hlt : start + c < t.length := by omega
      rw [Nat.min_eq_right (Nat.le_of_lt hlt), if_neg (by omega)]
      have h1' : start + c - ov < t.length := by omega
      have h2' : t.length - (start + c - ov) ≤ n := by omega
      obtain ⟨L, hL⟩ := chunkLoop_head t c ov n (start + c - ov) h1' h2'
      rw [List.chain'_cons']
      refine ⟨?_, ih (start + c - ov) h1' h2'⟩
      intro y hy
      rw [hL] at hy
      simp only [List.head?_cons, Option.mem_def, Option.some.injEq] at hy
      subst hy
      have hlen : (pySlice t start (start + c)).length = c := by
        rw [pySlice_length]; omega
      rw [hlen]
      simp only [pySlice]
      rw [Nat.add_sub_cancel_left, List.drop_take, List.drop_drop, List.take_take]
      have hmin2 : ov ≤ min t.length (start + c - ov + c) - (start + c - ov) := by
        rw [Nat.min_def]; split <;> omega
      rw [Nat.min_eq_left hmin2]
      have e1 : c - (c - ov) = ov := by omega
      have e2 : start + (c - ov) = start + c - ov := by omega
      rw [e1, e2]

theorem chunkLoop_join (t : Str) (c ov : Nat) (hov : ov < c) :
    ∀ fuel start, start < t.length → t.length - start ≤ fuel →
      joinOverlap ov (chunkLoop t c ov start fuel) = t.drop start := by
  intro fuel
  induction fuel with
  | zero => intro start h1 h2; omega
  | succ n ih =>
    intro start h1 h2
    rw [chunkLoop_succ, if_pos h1]
    by_cases h3 : t.length ≤ start + c
    · rw [Nat.min_eq_left h3, if_pos rfl]
      simp only [joinOverlap, List.map_nil, List.flatten_nil, List.append_nil]
      rw [pySlice]
      exact List.take_of_length_le (by simp)
    · have hlt : start + c < t.length := by omega
      rw [Nat.min_eq_right (Nat.le_of_lt hlt), if_neg (by omega)]
      have h1' : start + c - ov < t.length := by omega
      have h2' : t.length - (start + c - ov) ≤ n := by omega
      obtain ⟨L, hL⟩ := chunkLoop_head t c ov n (start + c - ov) h1' h2'
      have hIH := ih (start + c - ov) h1' h2'
      rw [hL] at hIH ⊢
      simp only [joinOverlap, List.map_cons, List.flatten_cons] at hIH ⊢
      -- head of the tail is long enough to contain the whole overlap
      have hx : ov ≤ min t.length (start + c - ov + c) - (start + c - ov) := by
        rw [Nat.min_def]; split <;> omega
      have hy : ov ≤ t.length - (start + c - ov) := by omega
      have hheadlen :
          ov ≤ (pySlice t (start + c - ov) (min t.length (start + c - ov + c))).length := by
        rw [pySlice_length]
        exact Nat.le_min.mpr ⟨hx, hy⟩
      -- drop the overlap from the reconstruction of the tail
      have hdrop : List.drop ov (t.drop (start + c - ov)) =
          List.drop ov (pySlice t (start + c - ov) (min t.length (start + c - ov + c))) ++
            (L.map (fun t => t.drop ov)).flatten := by
        rw [← hIH, List.drop_append_of_le_length hheadlen]
      rw [List.drop_drop] at hdrop
      have harith : start + c - ov + ov = start + c := by omega
      rw [harith] at hdrop
      rw [← hdrop]
      simp only [pySlice]
      rw [Nat.add_sub_cancel_left, ← List.drop_drop, List.take_append_drop]

theorem chunkLoop_get (t : Str) (c ov : Nat) (hov : ov < c) :
    ∀ fuel start, start < t.length → t.length - start ≤ fuel →
      ∀ i, i < (chunkLoop t c ov start fuel).length →
        (chunkLoop t c ov start fuel)[i]? =
          some (pySlice t (start + i * (c - ov)) (min t.length (start + i * (c - ov) + c))) ∧
        (i = (chunkLoop t c ov start fuel).length - 1 ↔
          t.length ≤ start + i * (c - ov) + c) := by
  intro fuel
  induction fuel with
  | zero => intro start h1 h2; omega
  | succ n ih =>
    intro start h1 h2 i hi
    rw [chunkLoop_succ, if_pos h1] at hi ⊢
    by_cases h3 : t.length ≤ start + c
    · rw [Nat.min_eq_left h3, if_pos rfl] at hi ⊢
      simp only [List.length_singleton] at hi
      interval_cases i
      refine ⟨?_, ?_⟩
      · simp only [List.getElem?_cons_zero, Option.some.injEq]
        rw [Nat.min_eq_left
          (show t.length ≤ start + 0 * (c - ov) + c by
            simp only [Nat.zero_mul, Nat.add_zero]; omega)]
        simp
      · simp only [List.length_singleton, Nat.zero_mul, Nat.add_zero]
        constructor
        · intro _; omega
        · intro _; trivial
    · have hlt : start + c < t.length := by omega
      rw [Nat.min_eq_right (Nat.le_of_lt hlt), if_neg (by omega)] at hi ⊢
      have h1' : start + c - ov < t.length := by omega
      have h2' : t.length - (start + c - ov) ≤ n := by omega
      have hLpos : 0 < (chunkLoop t c ov (start + c - ov) n).length := by
        obtain ⟨L, hL⟩ := chunkLoop_head t c ov n (start + c - ov) h1' h2'
        rw [hL]; simp
      match i with
      | 0 =>
        refine ⟨?_, ?_⟩
        · simp only [List.getElem?_cons_zero, Option.some.injEq]
          rw [Nat.min_eq_right
            (show start + 0 * (c - ov) + c ≤ t.length by
              simp only [Nat.zero_mul, Nat.add_zero]; omega)]
          simp
        · simp only [List.length_cons, Nat.zero_mul, Nat.add_zero]
          constructor
          · intro h0; omega
          · intro h0; omega
      | j + 1 =>
        simp only [List.length_cons] at hi
        have hj : j < (chunkLoop t c ov (start + c - ov) n).length := by omega
        have hIH := ih (start + c - ov) h1' h2' j hj
        have hstep : start + c - ov + j * (c - ov) = start + (j + 1) * (c - ov) := by
          rw [Nat.succ_mul]; omega
        refine ⟨?_, ?_⟩
        · simp only [List.getElem?_cons_succ]
          rw [hIH.1, hstep]
        · simp only [List.length_cons]
          rw [← hstep]
          constructor
          · intro h0
            exact hIH.2.mp (by omega)
          · intro h0
            have := hIH.2.mpr h0
            omega

/-! ### Cleaning a pure letter string is the identity (used for the
`"A" * 1500` chunk-boundary scenario) -/

theorem deHyphAux_nil (fuel : Nat) : deHyphAux fuel [] = [] := by
  cases fuel <;> rfl

theorem takeWhile_word_replicate (n : Nat) :
    List.takeWhile isWordChar (List.replicate n 'A') = List.replicate n 'A' := by
  induction n with
  | zero => rfl
  | succ m ih =>
    rw [List.replicate_succ, List.takeWhile_cons_of_pos (by decide), ih]

theorem dropWhile_word_replicate (n : Nat) :
    List.dropWhile isWordChar (List.replicate n 'A') = [] := by
  induction n with
  | zero => rfl
  | succ m ih =>
    rw [List.replicate_succ, List.dropWhile_cons_of_pos (by decide), ih]

theorem deHyph_replicate (n : Nat) : deHyph (List.replicate n 'A') = List.replicate n 'A' := by
  cases n with
  | zero => rfl
  | succ m =>
    have hdrop := dropWhile_word_replicate (m + 1)
    have htake := takeWhile_word_replicate (m + 1)
    rw [List.replicate_succ] at hdrop htake
    rw [deHyph, List.length_replicate, List.replicate_succ, deHyphAux, if_pos (by decide),
      hdrop, htake]
    simp [deHyphAux_nil]

theorem collapseNLAux_replicate (n : Nat) :
    ∀ k, collapseNLAux k (List.replicate n 'A') = List.replicate n 'A' := by
  induction n with
  | zero => intro k; rfl
  | succ m ih =>
    intro k
    rw [List.replicate_succ, collapseNLAux, if_neg (by decide), ih]

theorem collapseSPAux_replicate (n : Nat) :
    ∀ b, collapseSPAux b (List.replicate n 'A') = List.replicate n 'A' := by
  induction n with
  | zero => intro b; rfl
  | succ m ih =>
    intro b
    rw [List.replicate_succ, collapseSPAux, if_neg (by decide), ih]

theorem dropWhile_space_replicate (n : Nat) :
    List.dropWhile isPySpace (List.replicate n 'A') = List.replicate n 'A' := by
  cases n with
  | zero => rfl
  | succ m => rw [List.replicate_succ, List.dropWhile_cons_of_neg (by decide)]

theorem clean_text_replicate (n : Nat) :
    clean_text (List.replicate n 'A') = List.replicate n 'A' := by
  cases n with
  | zero => rfl
  | succ m =>
    rw [clean_text, if_neg (by simp [List.replicate_succ])]
    rw [deHyph_replicate, mapCR, List.map_replicate, if_neg (by decide)]
    rw [collapseNL, collapseNLAux_replicate, mapTabNbsp, List.map_replicate,
      if_neg (by decide)]
    rw [collapseSP, collapseSPAux_replicate, pyStrip, dropWhile_space_replicate,
      List.reverse_replicate, dropWhile_space_replicate, List.reverse_replicate]

/-! ### Claim theorems: chunking (C2, C3) -/

/-- C2 counterexample: the claim quantifies over arbitrary text `T`, but
`chunk_text` normalizes its input first, so concatenating the chunks with
the overlap removed reconstructs the cleaned text, not `T` itself:
`"a  b"` (double space) comes back as `"a b"`. -/
theorem C2_counterexample :
    joinOverlap 200 (chunk_text (str "a  b") 1200 200) ≠ str "a  b" := by decide

/-- C2 (amended): for any text `T` and `overlap < size`, every segment of
`chunk_text T size overlap` has length at most `size`, each pair of
consecutive segments overlaps by exactly `overlap` characters (the last
`overlap` characters of one segment are the first `overlap` characters of
the next), and concatenating the segments with the overlap removed
reconstructs `_clean_text T` exactly — hence `T` itself whenever `T` is
already normalized (final conjunct). -/
theorem C2_chunk_roundtrip_clean (T : Str) (csize ov : Nat) (hov : ov < csize) :
    (∀ s ∈ chunk_text T csize ov, s.length ≤ csize) ∧
    List.Chain' (fun s1 s2 => s1.drop (s1.length - ov) = s2.take ov)
      (chunk_text T csize ov) ∧
    joinOverlap ov (chunk_text T csize ov) = clean_text T ∧
    (clean_text T = T → joinOverlap ov (chunk_text T csize ov) = T) := by
  have hjoin : joinOverlap ov (chunk_text T csize ov) = clean_text T := by
    rw [chunk_text]
    by_cases hle : (clean_text T).length ≤ csize
    · rw [if_pos hle]
      by_cases hnil : clean_text T = []
      · rw [if_pos hnil, joinOverlap, hnil]
      · rw [if_neg hnil]
        simp [joinOverlap]
    · rw [if_neg hle]
      have h1 : 0 < (clean_text T).length := by omega
      have h2 : (clean_text T).length - 0 ≤ (clean_text T).length + 1 := by omega
      rw [chunkLoop_join _ _ _ hov _ _ h1 h2, List.drop_zero]
  refine ⟨?_, ?_, hjoin, fun h => hjoin.trans h⟩
  · rw [chunk_text]
    by_cases hle : (clean_text T).length ≤ csize
    · rw [if_pos hle]
      by_cases hnil : clean_text T = []
      · rw [if_pos hnil]
        simp
      · rw [if_neg hnil]
        simpa using hle
    · rw [if_neg hle]
      exact chunkLoop_len_le _ _ _ _ _
  · rw [chunk_text]
    by_cases hle : (clean_text T).length ≤ csize
    · rw [if_pos hle]
      by_cases hnil : clean_text T = []
      · rw [if_pos hnil]
        exact List.chain'_nil
      · rw [if_neg hnil]
        exact List.chain'_singleton _
    · rw [if_neg hle]
      exact chunkLoop_chain _ _ _ hov _ _ (by omega) (by omega)

/-- C2 witness: the amended round trip at a concrete input (the
reconstruction conjunct). -/
theorem C2_witness :
    joinOverlap 1 (chunk_text (str "hello") 3 1) = clean_text (str "hello") :=
  (C2_chunk_roundtrip_clean (str "hello") 3 1 (by decide)).2.2.1

/-- C3 counterexample: a nonempty text of length at most `size` whose
cleaned form is empty yields the empty chunk sequence, not a single
chunk: the claim ties the empty output to the empty input text only. -/
theorem C3_counterexample :
    chunk_text (str " ") 1200 200 = [] ∧ str " " ≠ [] ∧ (str " ").length ≤ 1200 := by
  decide

/-- C3 (amended): the window structure holds of the normalized text that
`chunk_text` actually chunks: if the cleaned text fits in one chunk the
result is that single cleaned chunk (empty sequence when the cleaned text
is empty); otherwise chunk `i` covers characters
`[i*(size-overlap), min (len, i*(size-overlap)+size))` of the cleaned
text and the final chunk is exactly the first one whose window reaches
the end of the cleaned text (so it ends at the end, with no tail beyond).
On 1500 copies of `'A'` (already normalized) with `size = 1200`,
`overlap = 200` this yields exactly the two chunks `[0, 1200)` and
`[1000, 1500)`. -/
theorem C3_window_structure (T : Str) (csize ov : Nat) (hov : ov < csize) :
    ((clean_text T).length ≤ csize →
      chunk_text T csize ov = if clean_text T = [] then [] else [clean_text T]) ∧
    (csize < (clean_text T).length →
      ∀ i, i < (chunk_text T csize ov).length →
        (chunk_text T csize ov)[i]? =
          some (pySlice (clean_text T) (i * (csize - ov))
            (min (clean_text T).length (i * (csize - ov) + csize))) ∧
        (i = (chunk_text T csize ov).length - 1 ↔
          (clean_text T).length ≤ i * (csize - ov) + csize)) ∧
    chunk_text (List.replicate 1500 'A') 1200 200 =
      [List.replicate 1200 'A', List.replicate 500 'A'] := by
  refine ⟨?_, ?_, ?_⟩
  · intro hle
    rw [chunk_text, if_pos hle]
  · intro hgt i hi
    have hrw : chunk_text T csize ov =
        chunkLoop (clean_text T) csize ov 0 ((clean_text T).length + 1) := by
      rw [chunk_text, if_neg (by omega)]
    have h1 : 0 < (clean_text T).length := by omega
    have h2 : (clean_text T).length - 0 ≤ (clean_text T).length + 1 := by omega
    have hmain := chunkLoop_get (clean_text T) csize ov hov ((clean_text T).length + 1) 0 h1 h2 i
      (by rw [← hrw]; exact hi)
    rw [hrw]
    simp only [Nat.zero_add] at hmain
    exact hmain
  · rw [chunk_text, clean_text_replicate, List.length_replicate, if_neg (by omega)]
    rw [show (1500 : Nat) + 1 = 1500 + 1 from rfl, chunkLoop_succ,
      if_pos (by rw [List.length_replicate]; omega)]
    rw [List.length_replicate]
    rw [Nat.min_eq_right (by omega : (0 : Nat) + 1200 ≤ 1500), if_neg (by omega)]
    rw [chunkLoop_succ, if_pos (by rw [List.length_replicate]; omega), List.length_replicate]
    rw [Nat.min_eq_left (by omega : (1500 : Nat) ≤ 0 + 1200 - 200 + 1200), if_pos rfl]
    rw [pySlice, pySlice, List.drop_replicate, List.take_replicate, List.drop_replicate,
      List.take_replicate]
    norm_num

/-- C3 witness: the amended window structure at a concrete input (the
chunk-boundary scenario conjunct). -/
theorem C3_witness :
    chunk_text (List.replicate 1500 'A') 1200 200 =
      [List.replicate 1200 'A', List.replicate 500 'A'] :=
  (C3_window_structure (str "x") 3 1 (by decide)).2.2

/-! ### Ordering and membership lemmas for the search/sort models -/

theorem mem_insertDesc {α : Type} (key : α → Int) (x y : α) :
    ∀ l, y ∈ insertDesc key x l ↔ y = x ∨ y ∈ l := by
  intro l
  induction l with
  | nil => simp [insertDesc]
  | cons a l ih =>
    simp only [insertDesc]
    split
    · simp [List.mem_cons]
    · simp only [List.mem_cons, ih]
      tauto

theorem mem_sortDesc {α : Type} (key : α → Int) (y : α) :
    ∀ l, y ∈ sortDesc key l ↔ y ∈ l := by
  intro l
  induction l with
  | nil => simp [sortDesc]
  | cons a l ih =>
    simp only [sortDesc, List.foldr_cons] at ih ⊢
    rw [mem_insertDesc]
    simp only [List.mem_cons, ih]

theorem length_insertDesc {α : Type} (key : α → Int) (x : α) :
    ∀ l, (insertDesc key x l).length = l.length + 1 := by
  intro l
  induction l with
  | nil => rfl
  | cons a l ih =>
    simp only [insertDesc]
    split
    · simp
    · simp [ih]

theorem length_sortDesc {α : Type} (key : α → Int) :
    ∀ l : List α, (sortDesc key l).length = l.length := by
  intro l
  induction l with
  | nil => rfl
  | cons a l ih =>
    simp only [sortDesc, List.foldr_cons] at ih ⊢
    rw [length_insertDesc, ih]
    simp

/-! ### Claim C1: tenant isolation of retrieval -/

/-- C1: `vector_search_chunks` never returns another tenant\x27s chunk —
every hit is the projection of a chunk of the collection owned by the
caller `A` (so never one with `user_id = B` for `B ≠ A`) — and the
`user_id` filter sits inside the `$vectorSearch` stage itself: the
candidate set is the filtered collection, so when embedding and index are
available the result holds `min k` (number of A-owned chunks) hits — B
never occupies a top-k slot. -/
theorem C1_tenant_isolation (env : RagEnv) (coll : List ChunkDoc) (q : Str)
    (A B : String) (k : Nat) (hAB : A ≠ B) :
    (∀ hit ∈ vector_search_chunks env coll q A k,
      ∃ cd ∈ coll, cd.user_id = A ∧ cd.user_id ≠ B ∧ hit.content = cd.content ∧
        hit.doc_id = cd.doc_id ∧ hit.page = cd.page) ∧
    (∀ qv, env.embedQuery q = Except.ok qv → env.indexOk = true →
      (vector_search_chunks env coll q A k).length =
        min k ((coll.filter (fun c => c.user_id == A)).length)) := by
  constructor
  · intro hit hhit
    cases hq : env.embedQuery q with
    | error e =>
      simp only [vector_search_chunks, hq] at hhit
      simp at hhit
    | ok qv =>
      simp only [vector_search_chunks, hq] at hhit
      by_cases hidx : env.indexOk = true
      · rw [if_pos hidx] at hhit
        simp only [List.mem_map] at hhit
        obtain ⟨cd, hcd, hproj⟩ := hhit
        have hcd2 : cd ∈ sortDesc (fun c => env.scoreFn qv c.embedding)
            (coll.filter (fun c => c.user_id == A)) := List.mem_of_mem_take hcd
        rw [mem_sortDesc] at hcd2
        rw [List.mem_filter] at hcd2
        have hA : cd.user_id = A := by simpa using hcd2.2
        subst hproj
        exact ⟨cd, hcd2.1, hA, by rw [hA]; exact hAB, rfl, rfl, rfl⟩
      · rw [if_neg hidx] at hhit
        simp at hhit
  · intro qv hq hidx
    simp only [vector_search_chunks, hq]
    rw [if_pos hidx]
    rw [List.length_map, List.length_take, length_sortDesc]

/-- C1 witness: over one chunk of each tenant, with B\x27s vector scoring
strictly higher, a top-1 search for A still returns exactly one hit (the
top-k slot is not leaked to B). -/
theorem C1_witness :
    (vector_search_chunks baseEnv [chunkA, chunkB] (str "q") "A" 1).length =
      min 1 (([chunkA, chunkB].filter (fun c => c.user_id == "A")).length) :=
  (C1_tenant_isolation baseEnv [chunkA, chunkB] (str "q") "A" "B" 1 (by decide)).2
    [1] rfl rfl

/-! ### Claim C4: partial ingestion on embedding failure -/

theorem embed_foldl (f : Str → Except Str (List Int)) :
    ∀ (ts : List Str) (acc : List (List Int)),
      ts.foldl (fun acc t =>
          acc ++ [match f t with | .ok emb => emb | .error _ => []]) acc =
        acc ++ ts.map (fun t => match f t with | .ok emb => emb | .error _ => []) := by
  intro ts
  induction ts with
  | nil => intro acc; simp
  | cons t ts ih =>
    intro acc
    simp only [List.foldl_cons, List.map_cons]
    rw [ih]
    simp

theorem embed_texts_gemini_eq_map (f : Str → Except Str (List Int)) (ts : List Str) :
    embed_texts_gemini f ts =
      ts.map (fun t => match f t with | .ok emb => emb | .error _ => []) := by
  rw [embed_texts_gemini]
  by_cases h : ts = []
  · subst h; simp
  · rw [if_neg h, embed_foldl]
    simp

theorem insertChunks_count (env : RagEnv) (d u : String) (pg : Nat) :
    ∀ (l : List (Nat × (Str × List Int))) (acc : Nat × List ChunkDoc),
      acc.2.length = acc.1 →
      (insertChunks env d u pg l acc).2.length = (insertChunks env d u pg l acc).1 := by
  intro l
  induction l with
  | nil => intro acc h; simpa [insertChunks] using h
  | cons p rest ih =>
    intro acc h
    simp only [insertChunks]
    split
    · exact ih _ (by simp [h])
    · exact ih _ h

theorem ingestPagesLoop_count (env : RagEnv) (d u : String) :
    ∀ (ps : List Page) (acc : Nat × List ChunkDoc), acc.2.length = acc.1 →
      (ingestPagesLoop env d u ps acc).2.length = (ingestPagesLoop env d u ps acc).1 := by
  intro ps
  induction ps with
  | nil => intro acc h; simpa [ingestPagesLoop] using h
  | cons p rest ih =>
    intro acc h
    simp only [ingestPagesLoop]
    exact ih _ (insertChunks_count env d u p.page _ _ h)

/-- C4 counterexample: with an embedding service that always fails and a
one-page document producing one chunk, `ingest_document_to_mongo` still
persists a Chunk record (with an empty embedding vector) and reports
`chunks = 1`, not the strictly smaller count the claim requires — the
failed chunk is not skipped. -/
theorem C4_counterexample :
    ((ingest_document_to_mongo embedFailEnv [] [] [] "f.pdf" "u" "pdf").1 =
      IngestResult.ok "d" 1 1) ∧
    ((ingest_document_to_mongo embedFailEnv [] [] [] "f.pdf" "u" "pdf").2.2.map
      (fun cd => cd.embedding)) = [[]] ∧
    (embedFailEnv.embedDoc (List.replicate 60 'a')).isOk = false := by
  decide

/-- C4 (amended): an embedding failure is not fatal, but the chunk is not
skipped either — `embed_texts_gemini` maps every failed call to an empty
embedding (keeping one entry per chunk), those chunks are persisted like
any other, and the `chunks` count of an `ok` result equals the number of
chunk records actually persisted (it is reduced only by failed inserts,
not by failed embeddings). -/
theorem C4_embedding_failure_persisted :
    (∀ (env : RagEnv) (docs : List DocMeta) (chs : List ChunkDoc) (bytes : List Nat)
        (fn uid ft d : String) (p n : Nat),
      (ingest_document_to_mongo env docs chs bytes fn uid ft).1 = IngestResult.ok d p n →
      (ingest_document_to_mongo env docs chs bytes fn uid ft).2.2.length =
        chs.length + n) ∧
    (∀ (f : Str → Except Str (List Int)) (ts : List Str),
      embed_texts_gemini f ts =
        ts.map (fun t => match f t with | .ok emb => emb | .error _ => [])) := by
  constructor
  · intro env docs chs bytes fn uid ft d p n h
    cases hex : ingest_extract_pages env bytes ft with
    | error e =>
      simp only [ingest_document_to_mongo, hex] at h
      exact IngestResult.noConfusion h
    | ok pages =>
      simp only [ingest_document_to_mongo, hex] at h ⊢
      cases hins : env.insertDoc
          { doc_id := env.newDocId, user_id := uid, filename := fn,
            page_count := pages.length, created_at := env.now } with
      | error e =>
        simp [hins] at h
      | ok v =>
        simp only [hins] at h ⊢
        simp only [IngestResult.ok.injEq] at h
        rw [List.length_append,
          ingestPagesLoop_count env env.newDocId uid pages (0, []) rfl, h.2.2]
  · intro f ts
    exact embed_texts_gemini_eq_map f ts

/-- C4 witness: the amended count identity at the concrete
failing-embedding run. -/
theorem C4_witness :
    (ingest_document_to_mongo embedFailEnv [] [] [] "f.pdf" "u" "pdf").2.2.length =
      ([] : List ChunkDoc).length + 1 :=
  C4_embedding_failure_persisted.1 embedFailEnv [] [] [] "f.pdf" "u" "pdf" "d" 1 1 (by decide)

/-! ### Claim C5: ingestion no-content failure -/

/-- C5 counterexample: a PDF whose only page extracts to the empty string
(no native text, OCR fails) does not produce a not-ok result: ingestion
persists a Document record and returns ok with `chunks = 0`, although
every extracted page is empty. -/
theorem C5_counterexample :
    ((ingest_document_to_mongo emptyPageEnv [] [] [] "f.pdf" "u" "pdf").1 =
      IngestResult.ok "d" 1 0) ∧
    ((ingest_document_to_mongo emptyPageEnv [] [] [] "f.pdf" "u" "pdf").2.1.length = 1) ∧
    (extract_pdf_pages_text_or_ocr (emptyPageEnv.pdfPages []) =
      [{ page := 1, text := [] }]) := by
  decide

theorem ingest_after_pages_spec (env : RagEnv) (docs : List DocMeta)
    (chs : List ChunkDoc) (bytes : List Nat) (fn uid ft : String) (pages : List Page)
    (hex : ingest_extract_pages env bytes ft = Except.ok pages) :
    ingestAfterPages env docs chs bytes fn uid ft pages := by
  intro meta hmeta
  subst hmeta
  constructor
  · intro e he
    simp only [ingest_document_to_mongo, hex, he]
  · intro hok
    simp only [ingest_document_to_mongo, hex, hok]

/-- C5 (amended): a complete case split of `ingest_document_to_mongo`.
For a non-image file type it fails with `"No pages extracted"` exactly
when extraction yields zero pages; with at least one page — even with
every page empty — it proceeds (`ingestAfterPages`): the metadata insert
either fails, giving the distinct `"Failed to save document meta"` error
with nothing persisted, or succeeds, persisting a Document record and
returning ok with `doc_id`, the page count and the persisted chunk
count.  For an image file type it fails exactly when the extracted text
is empty (`"No text extracted from image"`) or starts with `"Error"`
(that text as the error); otherwise it proceeds as a one-page
document. -/
theorem C5_no_content (env : RagEnv) (docs : List DocMeta) (chs : List ChunkDoc)
    (bytes : List Nat) (fn uid ft : String) :
    ((pyLower ft == "png" || pyLower ft == "jpg" || pyLower ft == "jpeg") = false →
      (extract_pdf_pages_text_or_ocr (env.pdfPages bytes) = [] →
        ingest_document_to_mongo env docs chs bytes fn uid ft =
          (IngestResult.err (str "No pages extracted"), docs, chs)) ∧
      (extract_pdf_pages_text_or_ocr (env.pdfPages bytes) ≠ [] →
        ingestAfterPages env docs chs bytes fn uid ft
          (extract_pdf_pages_text_or_ocr (env.pdfPages bytes)))) ∧
    ((pyLower ft == "png" || pyLower ft == "jpg" || pyLower ft == "jpeg") = true →
      (extract_image_text (env.imageOcr bytes) = [] →
        ingest_document_to_mongo env docs chs bytes fn uid ft =
          (IngestResult.err (str "No text extracted from image"), docs, chs)) ∧
      (extract_image_text (env.imageOcr bytes) ≠ [] →
        (str "Error").isPrefixOf (extract_image_text (env.imageOcr bytes)) = true →
        ingest_document_to_mongo env docs chs bytes fn uid ft =
          (IngestResult.err (extract_image_text (env.imageOcr bytes)), docs, chs)) ∧
      (extract_image_text (env.imageOcr bytes) ≠ [] →
        (str "Error").isPrefixOf (extract_image_text (env.imageOcr bytes)) = false →
        ingestAfterPages env docs chs bytes fn uid ft
          [{ page := 1, text := extract_image_text (env.imageOcr bytes) }])) := by
  constructor
  · intro himg
    constructor
    · intro hnil
      have hex : ingest_extract_pages env bytes ft =
          Except.error (str "No pages extracted") := by
        simp [ingest_extract_pages, himg, hnil]
      simp [ingest_document_to_mongo, hex]
    · intro hne
      apply ingest_after_pages_spec
      simp [ingest_extract_pages, himg, hne]
  · intro himg
    refine ⟨?_, ?_, ?_⟩
    · intro hnil
      have hex : ingest_extract_pages env bytes ft =
          Except.error (str "No text extracted from image") := by
        simp [ingest_extract_pages, himg, hnil]
      simp [ingest_document_to_mongo, hex]
    · intro hne hpre
      have hex : ingest_extract_pages env bytes ft =
          Except.error (extract_image_text (env.imageOcr bytes)) := by
        simp [ingest_extract_pages, himg, hne, hpre]
      simp [ingest_document_to_mongo, hex]
    · intro hne hpre
      apply ingest_after_pages_spec
      simp [ingest_extract_pages, himg, hne, hpre]

/-- C5 witness: the zero-pages branch of the amended claim at a concrete
environment. -/
theorem C5_witness :
    ingest_document_to_mongo noPagesEnv [] [] [] "f.pdf" "u" "pdf" =
      (IngestResult.err (str "No pages extracted"), [], []) :=
  ((C5_no_content noPagesEnv [] [] [] "f.pdf" "u" "pdf").1 (by decide)).1 (by decide)

/-! ### Claim C6: synthesizer parse fallback -/

/-- C6 (code bug): the generation output `"\x7bnot json\x7d"` has a first
`\x7b` and a last `\x7d`, so `answer_with_rag` attempts a JSON parse of the
span; the parse fails, and — because the `json.loads` call sits inside
the same `try` as everything else — the function returns the
`"Error synthesizing answer: ..."` string instead of the raw response
text, contradicting the claim (and the docstring "fallback to text if
JSON fails"). -/
theorem C6_parse_error_not_raw :
    answer_with_rag badJsonEnv (str "q") [] "English" =
      str "Error synthesizing answer: Expecting value: line 1 column 2 (char 1)" ∧
    answer_with_rag badJsonEnv (str "q") [] "English" ≠ str "\x7bnot json\x7d" ∧
    badJsonEnv.generate (rag_prompt (str "q") [] "English") =
      Except.ok (str "\x7bnot json\x7d") := by
  constructor
  · decide
  · constructor
    · decide
    · rfl

/-! ### Claim C7: per-page OCR degradation -/

/-- C7 counterexample: a low-text page whose native text layer is
`"abc"` and whose OCR raises keeps its nonempty native text — the page
does not degrade to the empty string. -/
theorem C7_counterexample :
    extract_pdf_pages_text_or_ocr
        [{ native := str "abc", ocr := Except.error (str "ocr boom") }] =
      [{ page := 1, text := str "abc" }] ∧ str "abc" ≠ ([] : Str) := by
  decide

/-- C7 (amended): extraction never aborts — the output has one entry per
page, numbered from 1 — and when OCR fails on a low-text page that page
degrades to its cleaned native text (which may be nonempty; it is the
empty string only when the native layer cleaned to empty); pages with at
least 50 cleaned characters keep their native text without consulting
OCR. -/
theorem C7_ocr_degradation (pdoc : List PdfPage) :
    (extract_pdf_pages_text_or_ocr pdoc).length = pdoc.length ∧
    (∀ i pp, pdoc[i]? = some pp →
      ∃ pg, (extract_pdf_pages_text_or_ocr pdoc)[i]? = some pg ∧ pg.page = i + 1 ∧
        ((clean_text pp.native).length < 50 →
          ∀ e, pp.ocr = Except.error e → pg.text = clean_text pp.native) ∧
        (¬(clean_text pp.native).length < 50 → pg.text = clean_text pp.native)) := by
  constructor
  · simp [extract_pdf_pages_text_or_ocr]
  · intro i pp hpp
    simp only [extract_pdf_pages_text_or_ocr, List.getElem?_map, List.enum_eq_enumFrom,
      List.getElem?_enumFrom, hpp, Option.map_some']
    refine ⟨_, rfl, ?_, ?_, ?_⟩
    · simp
    · intro hlt e hocr
      simp only [if_pos hlt, hocr]
    · intro hge
      simp only [if_neg hge]

/-- C7 witness: the amended degradation statement applied at a concrete
one-page document. -/
theorem C7_witness :
    (extract_pdf_pages_text_or_ocr
      [{ native := str "abc", ocr := Except.error (str "x") }]).length = 1 :=
  (C7_ocr_degradation [{ native := str "abc", ocr := Except.error (str "x") }]).1

/-! ### Claim C8: authentication round trip -/

theorem find?_append_of_none {α : Type} (p : α → Bool) :
    ∀ (l1 l2 : List α), (∀ x ∈ l1, p x = false) →
      (l1 ++ l2).find? p = l2.find? p := by
  intro l1
  induction l1 with
  | nil => intro l2 _; rfl
  | cons a l ih =>
    intro l2 h
    rw [List.cons_append,
      List.find?_cons_of_neg _ (by simp [h a (List.mem_cons_self a l)])]
    exact ih l2 (fun x hx => h x (List.mem_cons_of_mem a hx))

/-- C8: when registration of `alice` succeeds, authenticating with the
registered password returns a `UserInfo` whose username is `"alice"`,
authenticating with a wrong password returns `none`, and (third
conjunct) a username with no matching active account also returns
`none` — the two bad-credential outcomes are the same `none`,
indistinguishable to the caller.  The bcrypt oracle is assumed to verify
its own hashes (`hc`) and to accept only the hashed password (`hs`). -/
theorem C8_auth_roundtrip (bc : Bcrypt) (collection : List UserDoc)
    (newId : String) (now1 now2 now3 : Nat)
    (hc : ∀ p, bc.checkpw p (bc.hashpw p) = true)
    (hs : ∀ p q, bc.checkpw p (bc.hashpw q) = true → p = q)
    (hcreate : (create_user bc collection "alice" "a@x.com" "pw123" newId now1).1 = true) :
    ((authenticate_user bc
        (create_user bc collection "alice" "a@x.com" "pw123" newId now1).2
        "alice" "pw123" now2).1.map UserInfo.username = some "alice") ∧
    ((authenticate_user bc
        (create_user bc collection "alice" "a@x.com" "pw123" newId now1).2
        "alice" "wrong" now3).1 = none) ∧
    (∀ (coll2 : List UserDoc) (uname pw : String) (now4 : Nat),
      (∀ u ∈ coll2, u.username = uname → u.is_active = false) →
      (authenticate_user bc coll2 uname pw now4).1 = none) := by
  by_cases hdup :
      collection.any (fun u => u.username == "alice" || u.email == "a@x.com") = true
  · rw [create_user, if_pos hdup] at hcreate
    exact absurd hcreate (by simp)
  · have hdup2 :
        collection.any (fun u => u.username == "alice" || u.email == "a@x.com") = false := by
      revert hdup
      cases collection.any (fun u => u.username == "alice" || u.email == "a@x.com") <;> simp
    have hcoll : (create_user bc collection "alice" "a@x.com" "pw123" newId now1).2 =
        collection ++
          [{ user_id := newId, username := "alice", email := "a@x.com",
             password_hash := bc.hashpw "pw123", created_at := now1, last_login := none,
             is_active := true }] := by
      rw [create_user, if_neg (by simp [hdup2])]
    have hnomatch : ∀ u ∈ collection,
        (fun u : UserDoc => u.username == "alice" && u.is_active) u = false := by
      rw [List.any_eq_false] at hdup2
      intro u hu
      have := hdup2 u hu
      simp only [Bool.or_eq_true, beq_iff_eq, not_or] at this
      simp [this.1]
    have hfind : ((create_user bc collection "alice" "a@x.com" "pw123" newId now1).2).find?
        (fun u => u.username == "alice" && u.is_active) =
        some { user_id := newId, username := "alice", email := "a@x.com",
               password_hash := bc.hashpw "pw123", created_at := now1, last_login := none,
               is_active := true } := by
      rw [hcoll, find?_append_of_none _ _ _ hnomatch]
      simp
    refine ⟨?_, ?_, ?_⟩
    · simp only [authenticate_user, hfind]
      rw [if_pos (hc "pw123")]
      simp
    · simp only [authenticate_user, hfind]
      by_cases hw : bc.checkpw "wrong" (bc.hashpw "pw123") = true
      · exact absurd (hs _ _ hw) (by decide)
      · rw [if_neg hw]
    · intro coll2 uname pw now4 hina
      have hnone : coll2.find? (fun u => u.username == uname && u.is_active) = none := by
        rw [List.find?_eq_none]
        intro u hu
        simp only [Bool.and_eq_true, beq_iff_eq, not_and]
        intro h1
        rw [hina u hu h1]
        simp
      simp [authenticate_user, hnone]

/-- C8 witness: the round trip under the identity bcrypt stand-in
starting from the empty user store. -/
theorem C8_witness :
    (authenticate_user idBcrypt
        (create_user idBcrypt [] "alice" "a@x.com" "pw123" "u1" 0).2
        "alice" "pw123" 1).1.map UserInfo.username = some "alice" :=
  (C8_auth_roundtrip idBcrypt [] "u1" 0 1 2
      (fun p => by simp [idBcrypt])
      (fun p q h => by simpa [idBcrypt] using h)
      (by decide)).1

/-! ### Claim C9: session deletion cascade and idempotence -/

theorem mem_insertByTimeAsc (x y : MsgDoc) :
    ∀ l, y ∈ insertByTimeAsc x l ↔ y = x ∨ y ∈ l := by
  intro l
  induction l with
  | nil => simp [insertByTimeAsc]
  | cons a l ih =>
    simp only [insertByTimeAsc]
    split
    · simp [List.mem_cons]
    · simp only [List.mem_cons, ih]
      tauto

theorem mem_sortByTimeAsc (y : MsgDoc) :
    ∀ l, y ∈ sortByTimeAsc l ↔ y ∈ l := by
  intro l
  induction l with
  | nil => simp [sortByTimeAsc]
  | cons a l ih =>
    simp only [sortByTimeAsc, List.foldr_cons] at ih ⊢
    rw [mem_insertByTimeAsc]
    simp only [List.mem_cons, ih]

/-- C9: `delete_session S owner` returns true and removes the session
row and every message of `(S, owner)`: afterwards the session history is
empty, no listed session of `owner` carries session id `S` any more, and
deleting a second time is not an error — it returns true again and
leaves the store unchanged. -/
theorem C9_delete_session_cascade (coll : List MsgDoc) (S owner : String) :
    (delete_session coll S owner).1 = true ∧
    get_session_messages (delete_session coll S owner).2 S owner = [] ∧
    (∀ srow ∈ get_user_sessions (delete_session coll S owner).2 owner,
      srow.session_id ≠ some S) ∧
    delete_session (delete_session coll S owner).2 S owner =
      (true, (delete_session coll S owner).2) := by
  refine ⟨rfl, ?_, ?_, ?_⟩
  · rw [get_session_messages, delete_session]
    have hnil : List.filter
        (fun d : MsgDoc => d.session_id == some S && d.user_id == some owner)
        (List.filter
          (fun d : MsgDoc => !(d.session_id == some S && d.user_id == some owner)) coll)
        = [] := by
      rw [List.filter_filter]
      apply List.filter_eq_nil_iff.mpr
      intro a _
      simp [Bool.and_not_self]
    rw [hnil]
    rfl
  · intro srow hsrow
    rw [get_user_sessions, sortByTimeDesc] at hsrow
    rw [List.mem_reverse, mem_sortByTimeAsc, List.mem_filter] at hsrow
    obtain ⟨hmem, hflt⟩ := hsrow
    rw [delete_session] at hmem
    rw [List.mem_filter] at hmem
    intro heq
    have huser : (srow.user_id == some owner) = true := by
      simp only [Bool.and_eq_true] at hflt
      exact hflt.1
    have := hmem.2
    rw [heq] at this
    simp [huser] at this
  · rw [delete_session, delete_session, List.filter_filter]
    simp [Bool.and_self]

/-- C9 witness: the cascade at a concrete store holding session `S` of
`owner`, its three messages, and an unrelated session row. -/
theorem C9_witness :
    get_session_messages (delete_session c9coll "S" "owner").2 "S" "owner" = [] :=
  (C9_delete_session_cascade c9coll "S" "owner").2.1

/-! ### Claim C10: deactivated accounts cannot authenticate -/

/-- C10: when every stored user with the given username is deactivated,
`authenticate_user` returns `none` regardless of the password — the
lookup filters on `is_active: True`, so deactivation is indistinguishable
from bad credentials — and the store is left unchanged. -/
theorem C10_deactivated_no_auth (bc : Bcrypt) (coll : List UserDoc)
    (uname pw : String) (now : Nat)
    (h : ∀ u ∈ coll, u.username = uname → u.is_active = false) :
    authenticate_user bc coll uname pw now = (none, coll) := by
  have hfind : coll.find? (fun u => u.username == uname && u.is_active) = none := by
    rw [List.find?_eq_none]
    intro u hu
    simp only [Bool.and_eq_true, beq_iff_eq, not_and]
    intro h1
    rw [h u hu h1]
    simp
  simp [authenticate_user, hfind]

/-- C10 witness: a deactivated `alice` with the correct stored password
still authenticates to `none` under the identity bcrypt stand-in. -/
theorem C10_witness :
    authenticate_user idBcrypt [inactiveAlice] "alice" "pw123" 7 =
      (none, [inactiveAlice]) :=
  C10_deactivated_no_auth idBcrypt [inactiveAlice] "alice" "pw123" 7 (by decide)

end Adhikar
